import Mathlib

/-!
Verification of the gron minute-based cron scheduler.

Shallow embedding of the scheduling and execution engine of the source
(`gron.go` / the unnamed parts): the job data model, the time-match
predicate `IsItTime`, startup validation `Fix`, the per-job execution
lock used by `Run`, the command executor `innerRun` with its optional
timeout, the next-minute-boundary sleep computation, and the startup
pipeline of `main` / `InitLogging`.
-/

/-- The job definition, from the `CronJob` struct of the source.
Go `*int` / `*time.Weekday` pointer fields become `Option Int`
(Go `time.Weekday` is an integer type, Sunday = 0). The private
mutex-guarded running flag `x` is modelled separately as `LockState`. -/
structure CronJob where
  Description : String
  Command : String
  Pwd : String
  Minute : Option Int
  Hour : Option Int
  Day : Option Int
  Weekday : Option Int
  Timeout : Option Int
  Lock : Bool

/-- The components of a wall-clock instant that `IsItTime` reads from
`time.Now()`: `Minute()`, `Hour()`, `Day()` (day of month), `Weekday()`. -/
structure Timestamp where
  minute : Int
  hour : Int
  day : Int
  weekday : Int

/-- Ranges the Go time package guarantees for the components of a real
instant: minute 0-59, hour 0-23, day of month 1-31, weekday 0-6. -/
def Timestamp.Valid (t : Timestamp) : Bool :=
  decide (0 ≤ t.minute) && decide (t.minute < 60) &&
  decide (0 ≤ t.hour) && decide (t.hour < 24) &&
  decide (1 ≤ t.day) && decide (t.day ≤ 31) &&
  decide (0 ≤ t.weekday) && decide (t.weekday < 7)

/-- `CronJob.IsItTime` from the source: each of the four early returns
`if j.F != nil && *j.F != now.F() { return false }` becomes one branch of
the if-chain; a field participates only when present (non-nil). -/
def CronJob.IsItTime (j : CronJob) (now : Timestamp) : Bool :=
  if j.Minute.any (fun m => m != now.minute) then false
  else if j.Hour.any (fun h => h != now.hour) then false
  else if j.Day.any (fun d => d != now.day) then false
  else if j.Weekday.any (fun w => w != now.weekday) then false
  else true

/-- Characterisation of `IsItTime`: true exactly when every present field
equals the matching component of `now`. -/
theorem isItTime_char (j : CronJob) (now : Timestamp) :
    j.IsItTime now = true ↔
      (∀ m, j.Minute = some m → m = now.minute) ∧
      (∀ h, j.Hour = some h → h = now.hour) ∧
      (∀ d, j.Day = some d → d = now.day) ∧
      (∀ w, j.Weekday = some w → w = now.weekday) := by
  unfold CronJob.IsItTime
  rcases hm : j.Minute with _ | m <;> rcases hh : j.Hour with _ | h <;>
    rcases hd : j.Day with _ | d <;> rcases hw : j.Weekday with _ | w <;>
      simp [Option.any]

/-- C2: `IsItTime` returns true iff each present field (minute, hour,
day of month, weekday) equals the corresponding component of the
timestamp; in particular with all four fields absent it returns true
for every timestamp. -/
theorem isItTime_matches_iff (j : CronJob) (now : Timestamp) :
    (j.IsItTime now = true ↔
      (∀ m, j.Minute = some m → m = now.minute) ∧
      (∀ h, j.Hour = some h → h = now.hour) ∧
      (∀ d, j.Day = some d → d = now.day) ∧
      (∀ w, j.Weekday = some w → w = now.weekday)) ∧
    (j.Minute = none → j.Hour = none → j.Day = none → j.Weekday = none →
      j.IsItTime now = true) := by
  refine ⟨isItTime_char j now, fun hm hh hd hw => ?_⟩
  rw [isItTime_char]
  simp [hm, hh, hd, hw]

/-- A job with no time constraints and a timestamp, for evaluating the
match predicate at a concrete input. -/
def jobAllNone : CronJob :=
  { Description := "d", Command := "echo hi", Pwd := "",
    Minute := none, Hour := none, Day := none, Weekday := none,
    Timeout := none, Lock := false }

/-- A concrete valid timestamp: 12:00:37 on a day 15, weekday 3. -/
def ts0 : Timestamp := { minute := 0, hour := 12, day := 15, weekday := 3 }

/-- Witness for `isItTime_matches_iff` at a concrete job and timestamp. -/
theorem isItTime_matches_iff_witness : jobAllNone.IsItTime ts0 = true :=
  (isItTime_matches_iff jobAllNone ts0).2 rfl rfl rfl rfl

/-- C7: a job configured with `weekday = 7` never fires: since a real
timestamp's weekday is in 0-6, the comparison `*j.Weekday != now.Weekday()`
in `IsItTime` always blocks it. -/
theorem weekday7_never_fires (j : CronJob) (now : Timestamp)
    (hw : j.Weekday = some 7) (hv : now.Valid = true) :
    j.IsItTime now = false := by
  simp only [Timestamp.Valid, Bool.and_eq_true, decide_eq_true_eq] at hv
  cases htrue : j.IsItTime now with
  | false => rfl
  | true =>
    have h7 := ((isItTime_char j now).1 htrue).2.2.2 7 hw
    omega

/-- A concrete job with `weekday = 7` and nothing else constrained. -/
def jobWeekday7 : CronJob :=
  { Description := "w7", Command := "echo hi", Pwd := "",
    Minute := none, Hour := none, Day := none, Weekday := some 7,
    Timeout := none, Lock := false }

/-- Witness for `weekday7_never_fires` at a concrete job and timestamp. -/
theorem weekday7_never_fires_witness :
    jobWeekday7.Weekday = some 7 ∧ ts0.Valid = true ∧
      jobWeekday7.IsItTime ts0 = false :=
  ⟨rfl, by decide, weekday7_never_fires jobWeekday7 ts0 rfl (by decide)⟩

/-- `CronJob.Fix` from the source: `panic("No command specified: " +
j.Description)` when the command is empty, modelled as `Except.error`
carrying the panic message; otherwise no effect. -/
def CronJob.Fix (j : CronJob) : Except String Unit :=
  if j.Command = "" then .error ("No command specified: " ++ j.Description)
  else .ok ()

/-- C10: startup validation checks only that the command is non-empty; a
job with a time field outside its real-world range passes `Fix` and its
matcher returns false on every valid timestamp, so it never fires. -/
theorem out_of_range_never_fires (j : CronJob) (now : Timestamp)
    (hcmd : j.Command ≠ "") (hv : now.Valid = true) :
    j.Fix = .ok () ∧
      (((∃ m, j.Minute = some m ∧ (m < 0 ∨ 60 ≤ m)) ∨
        (∃ h, j.Hour = some h ∧ (h < 0 ∨ 24 ≤ h)) ∨
        (∃ d, j.Day = some d ∧ (d < 1 ∨ 32 ≤ d)) ∨
        (∃ w, j.Weekday = some w ∧ (w < 0 ∨ 7 ≤ w))) →
        j.IsItTime now = false) := by
  simp only [Timestamp.Valid, Bool.and_eq_true, decide_eq_true_eq] at hv
  refine ⟨by simp [CronJob.Fix, hcmd], fun hout => ?_⟩
  cases htrue : j.IsItTime now with
  | false => rfl
  | true =>
    obtain ⟨hmi, hho, hda, hwe⟩ := (isItTime_char j now).1 htrue
    rcases hout with ⟨m, hm, hr⟩ | ⟨h, hh, hr⟩ | ⟨d, hd, hr⟩ | ⟨w, hw, hr⟩
    · have := hmi m hm; omega
    · have := hho h hh; omega
    · have := hda d hd; omega
    · have := hwe w hw; omega

/-- A concrete job with `minute = 75`, outside the real minute range. -/
def jobMinute75 : CronJob :=
  { Description := "m75", Command := "echo hi", Pwd := "",
    Minute := some 75, Hour := none, Day := none, Weekday := none,
    Timeout := none, Lock := false }

/-- Witness for `out_of_range_never_fires` at `minute = 75`. -/
theorem out_of_range_never_fires_witness :
    jobMinute75.Fix = .ok () ∧ jobMinute75.IsItTime ts0 = false := by
  have h := out_of_range_never_fires jobMinute75 ts0 (by decide) (by decide)
  exact ⟨h.1, h.2 (Or.inl ⟨75, rfl, by decide⟩)⟩

/-- One minute in nanoseconds, the unit of Go `time.Duration`
(`time.Minute`). -/
def minuteNs : Nat := 60000000000

/-- Go `Time.Truncate(d)`: rounds down to the nearest multiple of `d`
since the zero time; instants are modelled as nanoseconds since the
zero time. -/
def truncateTo (d t : Nat) : Nat := t - t % d

/-- The sleep duration computed by `WaitUntilNextMinute` in the source:
`then := now.Add(time.Minute).Truncate(time.Minute)` and the function
sleeps for `then.Sub(now)`. -/
def waitUntilNextMinuteDuration (now : Nat) : Nat :=
  truncateTo minuteNs (now + minuteNs) - now

/-- Modelled from the spec: the delay from `now` to the next exact minute
boundary, i.e. to the least multiple of a minute strictly after `now`. -/
def specNextMinuteBoundary (now : Nat) : Nat :=
  (now / minuteNs + 1) * minuteNs

/-- C6: the computed sleep duration is exactly the delay to the next
minute boundary, not a fixed 60 seconds; at 12:00:37 it is 23 seconds. -/
theorem wait_until_next_minute_exact :
    (∀ now : Nat,
      waitUntilNextMinuteDuration now = specNextMinuteBoundary now - now) ∧
    waitUntilNextMinuteDuration (43237 * 1000000000) = 23 * 1000000000 := by
  constructor
  · intro now
    unfold waitUntilNextMinuteDuration specNextMinuteBoundary truncateTo minuteNs
    omega
  · rfl

/-- The mutex-guarded running flag of one lock-enabled job (field `x` of
`CronJob`, guarded by `m`), together with a count of how many executions
started through the lock are currently in flight. -/
structure LockState where
  x : Bool
  inFlight : Nat
deriving DecidableEq

/-- Lock state at job creation: flag clear, nothing in flight. -/
def initLock : LockState := { x := false, inFlight := 0 }

/-- The mutex-guarded check-and-set performed by `Run` for a
lock-enabled job: under `j.m`, if `j.x` is set the tick is skipped
(returns false); otherwise `j.x` is set and a new execution goroutine is
started (returns true). -/
def tryAcquire (s : LockState) : LockState × Bool :=
  if s.x then (s, false)
  else ({ x := true, inFlight := s.inFlight + 1 }, true)

/-- The deferred block of the execution goroutine in `Run`: under `j.m`,
clear `j.x`; the execution it belonged to leaves flight. -/
def release (s : LockState) : LockState :=
  { x := false, inFlight := s.inFlight - 1 }

/-- States of one job's lock reachable in the scheduler: start at
creation; each tick may run `tryAcquire`; a goroutine spawned by a
successful acquire (so one exists only while `x` is set) may finish and
run `release`. -/
inductive LockReachable : LockState → Prop where
  | init : LockReachable initLock
  | tick (s : LockState) : LockReachable s → LockReachable (tryAcquire s).1
  | finish (s : LockState) : LockReachable s → s.x = true →
      LockReachable (release s)

/-- Reachable lock states tie the flag to the in-flight count: the flag
is set exactly while one execution is in flight. -/
theorem lockReachable_inv (s : LockState) (h : LockReachable s) :
    s.inFlight = if s.x then 1 else 0 := by
  induction h with
  | init => rfl
  | tick t ht ih =>
    unfold tryAcquire
    cases hx : t.x with
    | true => simpa [hx] using ih
    | false => simp [hx] at ih ⊢; omega
  | finish t ht hx ih =>
    unfold release
    simp [hx] at ih
    simp [ih]

/-- C1: for a lock-enabled job at most one execution is in flight at any
reachable instant; while an execution acquired earlier has not released,
`tryAcquire` returns false; and immediately after `release` the next
`tryAcquire` returns true. -/
theorem lock_at_most_one (s : LockState) (h : LockReachable s) :
    s.inFlight ≤ 1 ∧
      (s.inFlight = 1 → (tryAcquire s).2 = false) ∧
      (tryAcquire (release s)).2 = true := by
  have inv := lockReachable_inv s h
  refine ⟨?_, ?_, ?_⟩
  · cases hx : s.x <;> simp [hx] at inv <;> omega
  · intro h1
    have hx : s.x = true := by
      cases hx : s.x
      · simp [hx] at inv; omega
      · rfl
    simp [tryAcquire, hx]
  · simp [tryAcquire, release]

/-- Witness for `lock_at_most_one` at the state reached by one
successful acquire from the initial lock state. -/
theorem lock_at_most_one_witness :
    (tryAcquire initLock).1.inFlight ≤ 1 ∧
      ((tryAcquire initLock).1.inFlight = 1 →
        (tryAcquire (tryAcquire initLock).1).2 = false) ∧
      (tryAcquire (release (tryAcquire initLock).1)).2 = true :=
  lock_at_most_one (tryAcquire initLock).1
    (LockReachable.tick initLock LockReachable.init)

/-- Termination signals a process can receive. -/
inductive Signal where
  | SIGKILL
  | SIGTERM
deriving DecidableEq

/-- Error classes a single command execution can end with. -/
inductive ExecError where
  | exitError
  | launchError
  | timeout
deriving DecidableEq

/-- What a given shell command would do if left alone: how long it runs,
the combined output it has produced by each elapsed second, and how it
ends (clean exit, non-zero exit, or failure to launch at all). -/
structure CommandBehavior where
  duration : Int
  outputBy : Int → String
  ending : Option ExecError

/-- What `cmd.CombinedOutput()` returns for one execution. -/
structure RunResult where
  out : String
  err : Option ExecError
  killedBy : Option Signal
deriving DecidableEq

/-- Modelled from the spec (Go standard library semantics of
`exec.CommandContext` under `context.WithTimeout`, not part of this
repository): with no deadline the command runs to completion; with a
deadline, a command that has not exited by the deadline is killed with
an unconditional SIGKILL, the call returns a timeout error, and the
output captured up to the deadline is preserved. -/
def runCommand (deadline : Option Int) (b : CommandBehavior) : RunResult :=
  match deadline with
  | none =>
    { out := b.outputBy b.duration, err := b.ending, killedBy := none }
  | some d =>
    if b.duration ≤ d then
      { out := b.outputBy b.duration, err := b.ending, killedBy := none }
    else
      { out := b.outputBy d, err := some .timeout, killedBy := some .SIGKILL }

/-- The failure report `innerRun` sends to the reporting sink when an
execution ends with an error. -/
structure Report where
  description : String
  command : String
  pwd : String
  out : String
  errText : String
deriving DecidableEq

/-- Human-readable error text, standing in for Go `err.Error()`. -/
def errText : ExecError → String
  | .exitError => "exit status 1"
  | .launchError => "fork/exec failure"
  | .timeout => "signal: killed"

/-- The environment one call of `innerRun` runs in: whether creating the
stdin pipe fails, and how the shell command would behave. -/
structure ExecEnv where
  stdinPipeFails : Bool
  behavior : CommandBehavior

/-- What one call of `innerRun` does to the process: either the process
exits (Go `log.Fatalw`), or the call returns and the scheduler loop goes
on, with the execution result and the failure report (if any) that was
sent to the sink. -/
inductive ProcEffect where
  | fatalExit
  | loopContinues (result : RunResult) (report : Option Report)

/-- `CronJob.innerRun` from the source: build the command (with a
deadline of `*j.Timeout` seconds when `j.Timeout` is set, none
otherwise), set its working directory, open the stdin pipe — on error
`log.Fatalw` terminates the process — close it, run `CombinedOutput`,
and on a non-nil error send a report with description, command, pwd,
captured output and error text to the reporting sink. -/
def CronJob.innerRun (j : CronJob) (env : ExecEnv) : ProcEffect :=
  if env.stdinPipeFails then .fatalExit
  else
    let r := runCommand j.Timeout env.behavior
    match r.err with
    | none => .loopContinues r none
    | some e => .loopContinues r (some
        { description := j.Description, command := j.Command, pwd := j.Pwd,
          out := r.out, errText := errText e })

/-- A concrete execution environment in which stdin-pipe creation fails. -/
def envPipeFail : ExecEnv :=
  { stdinPipeFails := true,
    behavior := { duration := 1, outputBy := fun _ => "", ending := none } }

/-- Counterexample to C3 as stated: a stdin-pipe creation failure is a
per-execution executor error, yet `innerRun` terminates the whole
process through `log.Fatalw` instead of swallowing it. -/
theorem perexec_error_stops_process_cex :
    jobAllNone.innerRun envPipeFail = ProcEffect.fatalExit := rfl

/-- C3 amended: for every execution in which the stdin pipe is created
successfully, every per-execution error (non-zero exit, launch failure,
timeout) is swallowed: `innerRun` returns and the scheduler loop
continues, never terminating the process. -/
theorem perexec_errors_swallowed (j : CronJob) (env : ExecEnv)
    (hp : env.stdinPipeFails = false) :
    j.innerRun env ≠ ProcEffect.fatalExit := by
  unfold CronJob.innerRun
  rw [hp]
  simp only [Bool.false_eq_true, if_false]
  cases (runCommand j.Timeout env.behavior).err <;> simp

/-- A concrete environment whose command exits non-zero after producing
output. -/
def envFailingCmd : ExecEnv :=
  { stdinPipeFails := false,
    behavior := { duration := 2, outputBy := fun _ => "boom",
                  ending := some .exitError } }

/-- Witness for `perexec_errors_swallowed` on a failing command. -/
theorem perexec_errors_swallowed_witness :
    jobAllNone.innerRun envFailingCmd ≠ ProcEffect.fatalExit :=
  perexec_errors_swallowed jobAllNone envFailingCmd rfl

/-- C4: with `Timeout` set to `t` seconds, the command runs under a
deadline of `t` seconds: if it has not exited by then it is killed with
an unconditional SIGKILL, the execution reports a timeout error, and the
output captured before termination is preserved; with `Timeout` unset
there is no deadline and the command runs to its full duration unkilled. -/
theorem timeout_deadline_semantics (j : CronJob) (b : CommandBehavior) :
    (∀ t, j.Timeout = some t → t < b.duration →
      runCommand j.Timeout b =
        { out := b.outputBy t, err := some .timeout,
          killedBy := some .SIGKILL }) ∧
    (j.Timeout = none →
      runCommand j.Timeout b =
        { out := b.outputBy b.duration, err := b.ending,
          killedBy := none }) := by
  constructor
  · intro t ht hl
    rw [ht]
    simp only [runCommand]
    rw [if_neg (by omega)]
  · intro ht
    rw [ht]
    rfl

/-- A command that would run for 10 seconds and then exit cleanly,
having produced output. -/
def behavior10s : CommandBehavior :=
  { duration := 10, outputBy := fun _ => "partial", ending := none }

/-- A concrete job with a 1-second timeout. -/
def jobTimeout1 : CronJob :=
  { Description := "t1", Command := "sleep 10", Pwd := "",
    Minute := none, Hour := none, Day := none, Weekday := none,
    Timeout := some 1, Lock := false }

/-- Witness for `timeout_deadline_semantics`: a 1-second timeout kills a
10-second command. -/
theorem timeout_deadline_semantics_witness :
    jobTimeout1.Timeout = some 1 ∧ (1 : Int) < behavior10s.duration ∧
      runCommand jobTimeout1.Timeout behavior10s =
        { out := behavior10s.outputBy 1, err := some .timeout,
          killedBy := some .SIGKILL } :=
  ⟨rfl, by decide,
    (timeout_deadline_semantics jobTimeout1 behavior10s).1 1 rfl (by decide)⟩

/-- The ways one execution attempt can end, as seen from the goroutine
`Run` spawns: the command completed, the command failed, the command was
killed at its deadline, or the executor itself panicked. -/
inductive ExecOutcome where
  | normal
  | cmdFailure
  | timeoutKill
  | panicked (msg : String)
deriving DecidableEq

/-- Whether the goroutine body (`innerRun`) returns normally or panics:
only an executor panic propagates; completion, command failure and
timeout kill all return normally. -/
def outcomeBody : ExecOutcome → Except String Unit
  | .panicked msg => .error msg
  | _ => .ok ()

/-- Go `defer` semantics: the deferred finaliser runs on the state both
when the body returns normally and when it panics, and a panic continues
to propagate afterwards. -/
def deferRun {α β : Type} (fin : α → α) (body : Except String β)
    (s : α) : α × Except String β :=
  match body with
  | .ok b => (fin s, .ok b)
  | .error e => (fin s, .error e)

/-- The goroutine `Run` spawns after a successful acquire: it runs
`innerRun` with the `release` of the lock deferred. -/
def runGoroutine (s : LockState) (o : ExecOutcome) :
    LockState × Except String Unit :=
  deferRun release (outcomeBody o) s

/-- C5: after a successful `tryAcquire`, the execution goroutine ends by
applying `release` — clearing the running flag — on every exit path:
normal completion, command failure, timeout kill, and executor panic. -/
theorem release_on_every_exit (s : LockState) (o : ExecOutcome)
    (_hacq : (tryAcquire s).2 = true) :
    (runGoroutine (tryAcquire s).1 o).1 = release (tryAcquire s).1 ∧
      (runGoroutine (tryAcquire s).1 o).1.x = false := by
  constructor
  · cases o <;> rfl
  · cases o <;> rfl

/-- Witness for `release_on_every_exit` on the executor-panic path from
the initial lock state. -/
theorem release_on_every_exit_witness :
    (tryAcquire initLock).2 = true ∧
      (runGoroutine (tryAcquire initLock).1 (.panicked "boom")).1.x
        = false :=
  ⟨rfl,
    (release_on_every_exit initLock (.panicked "boom") rfl).2⟩

/-- The `for _, j := range jobs { j.Fix() }` loop of `main`: the first
job with an empty command panics and nothing after it is reached. -/
def fixAll : List CronJob → Except String Unit
  | [] => .ok ()
  | j :: rest =>
    match j.Fix with
    | .error e => .error e
    | .ok () => fixAll rest

/-- If some loaded job has an empty command, `fixAll` panics with the
message naming that job's description (the first such job). -/
theorem fixAll_error_of_empty (jobs : List CronJob)
    (h : ∃ j ∈ jobs, j.Command = "") :
    ∃ j ∈ jobs, j.Command = "" ∧
      fixAll jobs = .error ("No command specified: " ++ j.Description) := by
  induction jobs with
  | nil => simp at h
  | cons j rest ih =>
    by_cases hj : j.Command = ""
    · refine ⟨j, List.mem_cons_self j rest, hj, ?_⟩
      simp [fixAll, CronJob.Fix, hj]
    · obtain ⟨j', hj'mem, hj'⟩ := h
      rcases List.mem_cons.1 hj'mem with rfl | hrest
      · exact absurd hj' hj
      · obtain ⟨k, hk, hkc, hke⟩ := ih ⟨j', hrest, hj'⟩
        refine ⟨k, List.mem_cons_of_mem j hk, hkc, ?_⟩
        simpa [fixAll, CronJob.Fix, hj] using hke

/-- The reporting-sink client handle (`raven.Client`); `disabled` marks
the client raven returns for an empty DSN, which silently drops reports. -/
structure RavenClient where
  disabled : Bool
deriving DecidableEq

/-- The `SENTRY_DSN` environment variable as `raven.New` sees it at
startup: empty (sink absent), a well-formed DSN, or a malformed one. -/
inductive SinkConfig where
  | absent
  | wellFormed (dsn : String)
  | malformed (dsn : String)
deriving DecidableEq

/-- Modelled from the spec (raven library behaviour, not part of this
repository): `raven.New` on an empty DSN succeeds with a disabled
client, on a well-formed DSN succeeds with a live client, and on a
malformed DSN returns an error. -/
def ravenNew : SinkConfig → Except String RavenClient
  | .absent => .ok { disabled := true }
  | .wellFormed _ => .ok { disabled := false }
  | .malformed d => .error ("raven: invalid DSN " ++ d)

/-- `InitLogging` from the source: build the zap logger, panicking on
error, then `sentry, err = raven.New(os.Getenv("SENTRY_DSN"))`,
panicking on error. A panic is an `Except.error` carrying its message. -/
def InitLogging (zapOk : Bool) (sink : SinkConfig) :
    Except String RavenClient :=
  if zapOk then
    match ravenNew sink with
    | .ok c => .ok c
    | .error e => .error e
  else .error "zap construction failed"

/-- How startup ends: the process dies before the loop (fatal load
error, panic in `InitLogging` or in `Fix`), or the scheduler loop is
entered with the loaded jobs and the sentry client. -/
inductive StartupResult where
  | crashed (msg : String)
  | running (jobs : List CronJob) (client : RavenClient)

/-- The startup path of `main` after flag parsing and file loading:
`InitLogging`, then `Fix` over every loaded job, and only then the
scheduler loop is entered. -/
def startup (zapOk : Bool) (sink : SinkConfig) (jobs : List CronJob) :
    StartupResult :=
  match InitLogging zapOk sink with
  | .error e => .crashed e
  | .ok c =>
    match fixAll jobs with
    | .error e => .crashed e
    | .ok () => .running jobs c

/-- C8: when some loaded job has an empty command the scheduler loop is
never entered, and (whenever startup got past logger construction) the
process dies with a panic message naming an empty-command job's
description; the whole job set is validated once, at startup. -/
theorem empty_command_fatal (zapOk : Bool) (sink : SinkConfig)
    (jobs : List CronJob) (h : ∃ j ∈ jobs, j.Command = "") :
    (∀ js c, startup zapOk sink jobs ≠ .running js c) ∧
      (∀ c, InitLogging zapOk sink = .ok c →
        ∃ j ∈ jobs, j.Command = "" ∧
          startup zapOk sink jobs =
            .crashed ("No command specified: " ++ j.Description)) := by
  obtain ⟨j, hmem, hc, hfix⟩ := fixAll_error_of_empty jobs h
  constructor
  · intro js c hrun
    unfold startup at hrun
    cases hinit : InitLogging zapOk sink with
    | error e => rw [hinit] at hrun; simp at hrun
    | ok c' => rw [hinit, hfix] at hrun; simp at hrun
  · intro c hinit
    exact ⟨j, hmem, hc, by unfold startup; rw [hinit, hfix]⟩

/-- A concrete job whose command is empty. -/
def jobNoCommand : CronJob :=
  { Description := "backup the db", Command := "", Pwd := "",
    Minute := none, Hour := none, Day := none, Weekday := none,
    Timeout := none, Lock := false }

/-- Witness for `empty_command_fatal` on a one-job set with an empty
command. -/
theorem empty_command_fatal_witness :
    (∀ js c, startup true .absent [jobNoCommand] ≠ .running js c) ∧
      (∀ c, InitLogging true .absent = .ok c →
        ∃ j ∈ [jobNoCommand], j.Command = "" ∧
          startup true .absent [jobNoCommand] =
            .crashed ("No command specified: " ++ j.Description)) :=
  empty_command_fatal true .absent [jobNoCommand]
    ⟨jobNoCommand, List.mem_singleton.2 rfl, rfl⟩

/-- Counterexample to C9 as stated: when construction of the reporting
sink fails (malformed `SENTRY_DSN`), `InitLogging` panics and startup
crashes before the scheduler loop is entered, instead of the scheduler
still starting. -/
theorem sink_misconfig_crashes_cex :
    startup true (SinkConfig.malformed "not-a-dsn") [] =
      StartupResult.crashed ("raven: invalid DSN " ++ "not-a-dsn") := rfl

/-- C9 amended: an absent reporting sink (empty `SENTRY_DSN`) never
crashes the scheduler — startup still reaches the loop with a disabled
client, and once running, a command failure merely produces a report
while the loop continues; but a sink whose construction fails crashes
startup (see the counterexample), so only absence is harmless. -/
theorem sink_absent_never_crashes (jobs : List CronJob) (j : CronJob)
    (env : ExecEnv) (hfix : fixAll jobs = .ok ())
    (hp : env.stdinPipeFails = false) :
    startup true .absent jobs = .running jobs { disabled := true } ∧
      j.innerRun env ≠ ProcEffect.fatalExit := by
  constructor
  · unfold startup InitLogging ravenNew
    rw [hfix]
    rfl
  · unfold CronJob.innerRun
    rw [hp]
    simp only [Bool.false_eq_true, if_false]
    cases (runCommand j.Timeout env.behavior).err <;> simp

/-- Witness for `sink_absent_never_crashes` on a concrete job list and a
failing command. -/
theorem sink_absent_never_crashes_witness :
    startup true .absent [jobAllNone] =
        .running [jobAllNone] { disabled := true } ∧
      jobAllNone.innerRun envFailingCmd ≠ ProcEffect.fatalExit :=
  sink_absent_never_crashes [jobAllNone] jobAllNone envFailingCmd rfl rfl
